import Mathlib

/-!
Formal model of the VIT healthcare triage and semantic-matching pipeline.

The definitions below are a shallow embedding of the Python sources
`src/main.py` (knowledge-base loading, embedding-response normalization,
cosine similarity, linear best-match search, rule-based risk scoring and the
prescription pipeline) and `src/email_service.py` (one-time OTP
verification).  Python floats are modelled as real numbers, Python `None`
as `Option.none`, Python dicts as association lists with first-match lookup
and in-place update, and the HTTP 404 "No match found" error as an explicit
`Decision.noMatchError` outcome.
-/

set_option autoImplicit false

/-- Characters-as-lists prefix test, `as` a prefix of `bs`. -/
def isPrefixB : List Char → List Char → Bool
  | [], _ => true
  | _ :: _, [] => false
  | a :: as, b :: bs => a == b && isPrefixB as bs

/-- Substring occurrence test on character lists: `pat` occurs somewhere in `hay`. -/
def isInfixB (pat : List Char) : List Char → Bool
  | [] => isPrefixB pat []
  | c :: rest => isPrefixB pat (c :: rest) || isInfixB pat rest

/-- The Python `pat in hay` substring test on strings. -/
def strContains (hay pat : String) : Bool :=
  isInfixB pat.data hay.data

/-- The Python `str.lower()` method (ASCII case folding suffices here). -/
def pyLower (s : String) : String :=
  ⟨s.data.map Char.toLower⟩

/-- `rule_based_risk_score` from `src/main.py` (lines 125-134): additive
substring-triggered weights over the lowercased, space-joined symptom text,
scaled by 10 and capped at 100. -/
def rule_based_risk_score (age : ℤ) (sex symptoms add_symptoms : String) : ℕ :=
  let txt := pyLower (symptoms ++ " " ++ add_symptoms)
  let t1 := if strContains txt "chest pain" || strContains txt "breath" then 4 else 0
  let t2 := if strContains txt "bleeding" then 4 else 0
  let t3 := if strContains txt "fever" then 2 else 0
  let t4 := if strContains txt "rash" then 1 else 0
  let t5 := if 60 < age then 3 else 0
  let t6 := if pyLower sex = "male" then 1 else 0
  min 100 ((t1 + t2 + t3 + t4 + t5 + t6) * 10)

/-- The weight sum exactly as the specification words it: 4 for "chest pain"
or "breath", 4 for "bleeding", 2 for "fever", 1 for "rash" over the
lowercased (space-joined) concatenation of the symptom fields, 3 for
age over 60, 1 for sex equal (case-insensitively) to "male". -/
def claim_risk_weight (age : ℤ) (sex symptoms add_symptoms : String) : ℕ :=
  (if strContains (pyLower (symptoms ++ " " ++ add_symptoms)) "chest pain"
      || strContains (pyLower (symptoms ++ " " ++ add_symptoms)) "breath" then 4 else 0)
  + (if strContains (pyLower (symptoms ++ " " ++ add_symptoms)) "bleeding" then 4 else 0)
  + (if strContains (pyLower (symptoms ++ " " ++ add_symptoms)) "fever" then 2 else 0)
  + (if strContains (pyLower (symptoms ++ " " ++ add_symptoms)) "rash" then 1 else 0)
  + (if 60 < age then 3 else 0)
  + (if pyLower sex = "male" then 1 else 0)

/-- Claim C2: for every age, sex, symptoms and additional symptoms, the risk
score equals `min 100 (10 * w)` where `w` is the weight sum of the claim,
and in particular no input yields a score above 100. -/
theorem risk_score_spec (age : ℤ) (sex symptoms add_symptoms : String) :
    rule_based_risk_score age sex symptoms add_symptoms
      = min 100 (10 * claim_risk_weight age sex symptoms add_symptoms)
    ∧ rule_based_risk_score age sex symptoms add_symptoms ≤ 100 := by
  constructor
  · simp only [rule_based_risk_score, claim_risk_weight]
    rw [Nat.mul_comm]
  · simp only [rule_based_risk_score]
    exact Nat.min_le_left _ _

/-- Python truthiness test `not v` for an optional float vector: `None` and
the empty list are falsy. -/
def vecFalsy : Option (List ℝ) → Bool
  | none => true
  | some [] => true
  | some (_ :: _) => false

/-- `sum(a*b for a, b in zip(v1, v2))`: the dot product over the zipped
(hence length-truncated) vectors. -/
def dotProd (a b : List ℝ) : ℝ :=
  ((a.zip b).map fun p => p.1 * p.2).sum

/-- `sum(a*a for a in v)`: the sum of squares of a vector. -/
def sumSq (a : List ℝ) : ℝ :=
  (a.map fun x => x * x).sum

open Classical in
/-- `cosine_similarity` from `src/main.py` (lines 96-104): 0.0 when either
argument is falsy (`None` or empty) or either norm is zero, otherwise the
zip-truncated dot product divided by the product of the full-length norms. -/
noncomputable def cosine_similarity (v1 v2 : Option (List ℝ)) : ℝ :=
  if vecFalsy v1 || vecFalsy v2 then 0
  else if Real.sqrt (sumSq (v1.getD [])) = 0 ∨ Real.sqrt (sumSq (v2.getD [])) = 0 then 0
  else dotProd (v1.getD []) (v2.getD [])
    / (Real.sqrt (sumSq (v1.getD [])) * Real.sqrt (sumSq (v2.getD [])))

theorem cosine_none_left (v : Option (List ℝ)) : cosine_similarity none v = 0 := rfl

theorem cosine_none_right (v : Option (List ℝ)) : cosine_similarity v none = 0 := by
  simp [cosine_similarity, vecFalsy]

theorem sumSq_nonneg (a : List ℝ) : 0 ≤ sumSq a := by
  refine List.sum_nonneg ?_
  intro x hx
  simp only [List.mem_map] at hx
  obtain ⟨y, -, rfl⟩ := hx
  exact mul_self_nonneg y

theorem vecFalsy_some (v : List ℝ) : vecFalsy (some v) = true ↔ v = [] := by
  cases v <;> simp [vecFalsy]

/-- The exact zero set of `cosine_similarity` on present vectors: zero iff a
vector is empty, a vector has zero norm (equivalently, zero sum of squares),
or the truncated dot product is zero. -/
theorem cosine_similarity_eq_zero_iff (v1 v2 : List ℝ) :
    cosine_similarity (some v1) (some v2) = 0
      ↔ v1 = [] ∨ v2 = [] ∨ sumSq v1 = 0 ∨ sumSq v2 = 0 ∨ dotProd v1 v2 = 0 := by
  by_cases h1 : v1 = []
  · simp [cosine_similarity, h1, vecFalsy]
  by_cases h2 : v2 = []
  · subst h2
    cases v1 with
    | nil => simp at h1
    | cons a as => simp [cosine_similarity, vecFalsy]
  have hf1 : vecFalsy (some v1) = false := by
    cases v1 with
    | nil => simp at h1
    | cons a as => rfl
  have hf2 : vecFalsy (some v2) = false := by
    cases v2 with
    | nil => simp at h2
    | cons a as => rfl
  have hs1 : Real.sqrt (sumSq v1) = 0 ↔ sumSq v1 = 0 :=
    Real.sqrt_eq_zero (sumSq_nonneg v1)
  have hs2 : Real.sqrt (sumSq v2) = 0 ↔ sumSq v2 = 0 :=
    Real.sqrt_eq_zero (sumSq_nonneg v2)
  simp only [cosine_similarity, hf1, hf2, Bool.or_self, Bool.false_eq_true, if_false,
    Option.getD_some]
  by_cases hz : Real.sqrt (sumSq v1) = 0 ∨ Real.sqrt (sumSq v2) = 0
  · rw [if_pos hz]
    simp only [hs1, hs2] at hz
    simp [h1, h2]
    tauto
  · rw [if_neg hz]
    push_neg at hz
    rw [div_eq_zero_iff, mul_eq_zero]
    simp only [hs1, hs2]
    tauto

/-- A loaded OTC knowledge-base entry as used by the request pipeline: the
`Key: Value` fields of the record plus the optional `embedding` attached at
startup (`e.get("embedding")` is `None` when absent or when the provider was
down). -/
structure ConditionRecord where
  fields : List (String × String)
  embedding : Option (List ℝ)

/-- The pipeline outcome of `generate_prescription` in `src/main.py`:
the high-risk escalation response, the recommendation response (risk score,
best similarity and matched record), or the HTTP 404 "No match found"
error raised when no record wins the search. -/
inductive Decision where
  | escalate (risk_score : ℕ)
  | recommend (risk_score : ℕ) (similarity : ℝ) (best_match : ConditionRecord)
  | noMatchError

open Classical in
/-- The linear-scan loop of `generate_prescription` (lines 194-198 of
`src/main.py`): `best_match, best_score = None, 0` followed by
`if sim > best_score: best_match, best_score = e, sim` over the records. -/
noncomputable def searchLoop {α : Type} (f : α → ℝ) :
    List α → Option α → ℝ → Option α × ℝ
  | [], best, score => (best, score)
  | e :: rest, best, score =>
      if f e > score then searchLoop f rest (some e) (f e)
      else searchLoop f rest best score

/-- The linear scan started from `(None, 0)`. -/
noncomputable def search {α : Type} (f : α → ℝ) (l : List α) : Option α × ℝ :=
  searchLoop f l none 0

theorem searchLoop_const {α : Type} (f : α → ℝ) (l : List α) (b : Option α) (s : ℝ)
    (h : ∀ e ∈ l, f e ≤ s) : searchLoop f l b s = (b, s) := by
  induction l with
  | nil => rfl
  | cons e rest ih =>
      simp only [searchLoop]
      rw [if_neg (not_lt.mpr (h e (List.mem_cons_self e rest)))]
      exact ih fun x hx => h x (List.mem_cons_of_mem e hx)

theorem searchLoop_first_max {α : Type} (f : α → ℝ) (x : α) (l₁ l₂ : List α) :
    ∀ (b : Option α) (s : ℝ), (∀ e ∈ l₁, f e < f x) → (∀ e ∈ l₂, f e ≤ f x) → s < f x →
      searchLoop f (l₁ ++ x :: l₂) b s = (some x, f x) := by
  induction l₁ with
  | nil =>
      intro b s _ h₂ hs
      simp only [List.nil_append, searchLoop]
      rw [if_pos hs]
      exact searchLoop_const f l₂ (some x) (f x) h₂
  | cons a l₁ ih =>
      intro b s h₁ h₂ hs
      simp only [List.cons_append, searchLoop]
      by_cases ha : f a > s
      · rw [if_pos ha]
        exact ih (some a) (f a) (fun e he => h₁ e (List.mem_cons_of_mem a he)) h₂
          (h₁ a (List.mem_cons_self a l₁))
      · rw [if_neg ha]
        exact ih b s (fun e he => h₁ e (List.mem_cons_of_mem a he)) h₂ hs

theorem searchLoop_mem {α : Type} (f : α → ℝ) (l : List α) :
    ∀ (b : Option α) (s : ℝ),
      searchLoop f l b s = (b, s)
        ∨ ∃ r ∈ l, searchLoop f l b s = (some r, f r) ∧ s < f r := by
  induction l with
  | nil => intro b s; exact Or.inl rfl
  | cons e rest ih =>
      intro b s
      simp only [searchLoop]
      by_cases he : f e > s
      · rw [if_pos he]
        rcases ih (some e) (f e) with h | ⟨r, hr, h, hlt⟩
        · exact Or.inr ⟨e, List.mem_cons_self e rest, h, he⟩
        · exact Or.inr ⟨r, List.mem_cons_of_mem e hr, h, lt_trans he hlt⟩
      · rw [if_neg he]
        rcases ih b s with h | ⟨r, hr, h, hlt⟩
        · exact Or.inl h
        · exact Or.inr ⟨r, List.mem_cons_of_mem e hr, h, hlt⟩

open Classical in
/-- The `/api/prescription/start` pipeline (`generate_prescription`,
`src/main.py` lines 179-230), restricted to the fields the decision depends
on.  The embedding provider is passed in as `embed`; the second component of
the result records the prompts sent to the provider, so an empty list means
no embedding call was made.  Prescription rendering, PDF generation and
email delivery happen after the decision and are outside this model. -/
noncomputable def generate_prescription (embed : String → Option (List ℝ))
    (kb : List ConditionRecord) (age : ℤ) (sex symptoms additional_symptoms : String) :
    Decision × List String :=
  if 50 ≤ rule_based_risk_score age sex symptoms additional_symptoms then
    (Decision.escalate (rule_based_risk_score age sex symptoms additional_symptoms), [])
  else
    match search (fun e => cosine_similarity (embed (symptoms ++ " " ++ additional_symptoms))
        e.embedding) kb with
    | (none, _) => (Decision.noMatchError, [symptoms ++ " " ++ additional_symptoms])
    | (some e, score) =>
        (Decision.recommend (rule_based_risk_score age sex symptoms additional_symptoms) score e,
          [symptoms ++ " " ++ additional_symptoms])

/-- Claim C1: for every patient input whose risk score is at least 50, the
pipeline returns the escalation decision carrying that risk score and the
list of embedding-provider calls is empty — no embedding is requested and
the knowledge base is never scanned (the right-hand side mentions neither
`embed` nor `kb`). -/
theorem escalation_short_circuit (embed : String → Option (List ℝ))
    (kb : List ConditionRecord) (age : ℤ) (sex symptoms additional_symptoms : String)
    (h : 50 ≤ rule_based_risk_score age sex symptoms additional_symptoms) :
    generate_prescription embed kb age sex symptoms additional_symptoms
      = (Decision.escalate (rule_based_risk_score age sex symptoms additional_symptoms), []) := by
  simp only [generate_prescription]
  rw [if_pos h]

/-- Witness for C1: a concrete high-risk input (age 70, male, "chest pain
and bleeding") scores at least 50 and is escalated with no embedding call. -/
theorem escalation_short_circuit_witness :
    50 ≤ rule_based_risk_score 70 "male" "chest pain and bleeding" ""
    ∧ generate_prescription (fun _ => none) [] 70 "male" "chest pain and bleeding" ""
        = (Decision.escalate (rule_based_risk_score 70 "male" "chest pain and bleeding" ""), []) :=
  ⟨by decide, escalation_short_circuit (fun _ => none) [] 70 "male" "chest pain and bleeding" ""
    (by decide)⟩

/-- Claim C7: when no record attains a strictly positive similarity against
the query, the scan keeps `best_match = None`, the pipeline raises the 404
not-found error, and that outcome is distinct from every recommendation. -/
theorem search_no_positive_no_match (embed : String → Option (List ℝ))
    (kb : List ConditionRecord) (age : ℤ) (sex symptoms additional_symptoms : String)
    (hrisk : rule_based_risk_score age sex symptoms additional_symptoms < 50)
    (hzero : ∀ e ∈ kb,
      cosine_similarity (embed (symptoms ++ " " ++ additional_symptoms)) e.embedding ≤ 0) :
    generate_prescription embed kb age sex symptoms additional_symptoms
        = (Decision.noMatchError, [symptoms ++ " " ++ additional_symptoms])
    ∧ ∀ (rs : ℕ) (sim : ℝ) (e : ConditionRecord),
        Decision.noMatchError ≠ Decision.recommend rs sim e := by
  have hs : search (fun e =>
      cosine_similarity (embed (symptoms ++ " " ++ additional_symptoms)) e.embedding) kb
        = (none, 0) :=
    searchLoop_const _ kb none 0 hzero
  constructor
  · simp only [generate_prescription]
    rw [if_neg (not_le.mpr hrisk), hs]
  · intro rs sim e h
    exact Decision.noConfusion h

/-- Claim C3 (amended): for every low-risk input whose embedding request
returns null — as happens on any transport failure and on every request in
degraded mode — every similarity is 0, the scan finds no winner, and the
pipeline raises the very same 404 "No match found" error as a genuine
no-match; the code has no separate "embedding unavailable" outcome. -/
theorem null_embedding_yields_no_match (embed : String → Option (List ℝ))
    (kb : List ConditionRecord) (age : ℤ) (sex symptoms additional_symptoms : String)
    (hrisk : rule_based_risk_score age sex symptoms additional_symptoms < 50)
    (hnone : embed (symptoms ++ " " ++ additional_symptoms) = none) :
    generate_prescription embed kb age sex symptoms additional_symptoms
      = (Decision.noMatchError, [symptoms ++ " " ++ additional_symptoms]) := by
  have hs : search (fun e =>
      cosine_similarity (embed (symptoms ++ " " ++ additional_symptoms)) e.embedding) kb
        = (none, 0) := by
    refine searchLoop_const _ kb none 0 ?_
    intro e _
    rw [hnone, cosine_none_left]
  simp only [generate_prescription]
  rw [if_neg (not_le.mpr hrisk), hs]

/-- Claim C6: ties at the maximal similarity are broken by knowledge-base
insertion order.  If `r₁` is the first record attaining the maximal
similarity (every earlier record scores strictly lower, every record scores
no higher), `r₂` is a later record tied with it, and the maximum is
positive, then the scan returns `r₁` with that score. -/
theorem search_tie_break (q : Option (List ℝ))
    (pre mid post : List ConditionRecord) (r₁ r₂ : ConditionRecord)
    (htie : cosine_similarity q r₁.embedding = cosine_similarity q r₂.embedding)
    (hmax : ∀ e ∈ pre ++ r₁ :: (mid ++ r₂ :: post),
      cosine_similarity q e.embedding ≤ cosine_similarity q r₁.embedding)
    (hfirst : ∀ e ∈ pre, cosine_similarity q e.embedding < cosine_similarity q r₁.embedding)
    (hpos : 0 < cosine_similarity q r₁.embedding) :
    search (fun e => cosine_similarity q e.embedding) (pre ++ r₁ :: (mid ++ r₂ :: post))
      = (some r₁, cosine_similarity q r₁.embedding) := by
  refine searchLoop_first_max _ r₁ pre (mid ++ r₂ :: post) none 0 hfirst ?_ hpos
  intro e he
  exact hmax e (List.mem_append_right pre (List.mem_cons_of_mem r₁ he))

/-- Claim C8: a record whose embedding is null can never be the winner of
the scan: its similarity is 0 against any query, and the strict
greater-than tracking that starts at 0 never selects it. -/
theorem null_embedding_never_wins (q : Option (List ℝ)) (kb : List ConditionRecord)
    (r : ConditionRecord)
    (h : (search (fun e => cosine_similarity q e.embedding) kb).1 = some r) :
    r.embedding ≠ none := by
  intro hnone
  rcases searchLoop_mem (fun e => cosine_similarity q e.embedding) kb none 0 with heq |
    ⟨x, hx, heq, hlt⟩
  · rw [search, heq] at h
    exact Option.noConfusion h
  · rw [search, heq] at h
    simp only [Option.some.injEq] at h
    subst h
    rw [hnone, cosine_none_right] at hlt
    exact lt_irrefl 0 hlt

/-- A sample knowledge-base record embedded along the first axis. -/
noncomputable def recUnit : ConditionRecord :=
  { fields := [("Condition", "Common Cold")], embedding := some [1, 0] }

/-- A sample knowledge-base record embedded along the second axis. -/
noncomputable def recOrtho : ConditionRecord :=
  { fields := [("Condition", "Flu")], embedding := some [0, 1] }

theorem cosine_unit_self : cosine_similarity (some [1, 0]) (some [1, 0]) = 1 := by
  norm_num [cosine_similarity, vecFalsy, dotProd, sumSq, Real.sqrt_one]

theorem cosine_unit_ortho : cosine_similarity (some [1, 0]) (some [0, 1]) = 0 := by
  norm_num [cosine_similarity, vecFalsy, dotProd, sumSq, Real.sqrt_one]

/-- Witness for C6: two identical records tie at similarity 1 against the
query `[1, 0]`; the scan returns the first of the two. -/
theorem search_tie_break_witness :
    0 < cosine_similarity (some [1, 0]) recUnit.embedding
    ∧ search (fun e => cosine_similarity (some [1, 0]) e.embedding) [recUnit, recUnit]
        = (some recUnit, cosine_similarity (some [1, 0]) recUnit.embedding) := by
  have hc : cosine_similarity (some [1, 0]) recUnit.embedding = 1 := cosine_unit_self
  have hpos : 0 < cosine_similarity (some [1, 0]) recUnit.embedding := by
    rw [hc]; norm_num
  refine ⟨hpos, ?_⟩
  refine search_tie_break (some [1, 0]) [] [] [] recUnit recUnit rfl ?_ ?_ hpos
  · intro e he
    simp only [List.nil_append, List.mem_cons, List.not_mem_nil, or_false] at he
    rcases he with rfl | rfl <;> exact le_refl _
  · intro e he
    exact absurd he (List.not_mem_nil e)

theorem search_recUnit :
    search (fun e => cosine_similarity (some [1, 0]) e.embedding) [recUnit]
      = (some recUnit, 1) := by
  have hc : cosine_similarity (some [1, 0]) recUnit.embedding = 1 := cosine_unit_self
  unfold search
  simp only [searchLoop, hc]
  rw [if_pos (by norm_num : (1:ℝ) > 0)]

/-- Witness for C8: a concrete scan that does return a winner, whose
embedding is indeed not null. -/
theorem null_embedding_never_wins_witness :
    (search (fun e => cosine_similarity (some [1, 0]) e.embedding) [recUnit]).1 = some recUnit
    ∧ recUnit.embedding ≠ none := by
  have h1 : (search (fun e => cosine_similarity (some [1, 0]) e.embedding) [recUnit]).1
      = some recUnit := by rw [search_recUnit]
  exact ⟨h1, null_embedding_never_wins (some [1, 0]) [recUnit] recUnit h1⟩

/-- Witness for C7: a low-risk input whose query vector is orthogonal to the
only record scores zero similarity everywhere and yields the 404 outcome. -/
theorem search_no_positive_no_match_witness :
    rule_based_risk_score 30 "female" "headache" "" < 50
    ∧ generate_prescription (fun _ => some [1, 0]) [recOrtho] 30 "female" "headache" ""
        = (Decision.noMatchError, ["headache" ++ " " ++ ""]) := by
  refine ⟨by decide, ?_⟩
  refine (search_no_positive_no_match (fun _ => some [1, 0]) [recOrtho] 30 "female" "headache" ""
    (by decide) ?_).1
  intro e he
  simp only [List.mem_singleton] at he
  subst he
  exact le_of_eq cosine_unit_ortho

/-- Witness for C3 (amended): a concrete low-risk input with a provider that
returns null is answered with the 404 not-found error. -/
theorem null_embedding_yields_no_match_witness :
    rule_based_risk_score 30 "female" "headache" "" < 50
    ∧ generate_prescription (fun _ => none) [recUnit] 30 "female" "headache" ""
        = (Decision.noMatchError, ["headache" ++ " " ++ ""]) :=
  ⟨by decide, null_embedding_yields_no_match (fun _ => none) [recUnit] 30 "female" "headache" ""
    (by decide) rfl⟩

/-- Counterexample for C3 as stated: with the embedding provider down, a
low-risk request produces exactly the same decision value — the 404
"No match found" error — as a query against a populated index that scores
zero similarity everywhere.  The code never produces an "Unavailable /
embedding unavailable" decision, so the two situations are not
distinguishable by the caller. -/
theorem unavailable_decision_counterexample :
    (generate_prescription (fun _ => none) [recOrtho] 30 "female" "headache" "").1
        = Decision.noMatchError
    ∧ (generate_prescription (fun _ => some [1, 0]) [recOrtho] 30 "female" "headache" "").1
        = Decision.noMatchError := by
  constructor
  · have h : search (fun e => cosine_similarity ((fun (_ : String) => (none : Option (List ℝ)))
        ("headache" ++ " " ++ "")) e.embedding) [recOrtho] = (none, 0) := by
      refine searchLoop_const _ _ none 0 ?_
      intro e _
      rw [cosine_none_left]
    simp only [generate_prescription]
    rw [if_neg (by decide), h]
  · have h : search (fun e => cosine_similarity ((fun (_ : String) => some [(1:ℝ), 0])
        ("headache" ++ " " ++ "")) e.embedding) [recOrtho] = (none, 0) := by
      refine searchLoop_const _ _ none 0 ?_
      intro e he
      simp only [List.mem_singleton] at he
      subst he
      exact le_of_eq cosine_unit_ortho
    simp only [generate_prescription]
    rw [if_neg (by decide), h]

/-- Counterexample for C4 as stated: the non-empty vectors `[1]` and
`[1, 1]` have different lengths (1 and 2), yet their similarity is not 0:
`zip` truncates to the common prefix, giving `1 / (1 * √2)`. -/
theorem mismatched_length_counterexample :
    ([(1:ℝ)].length = 1 ∧ [(1:ℝ), 1].length = 2)
    ∧ cosine_similarity (some [1]) (some [1, 1]) ≠ 0 := by
  refine ⟨⟨rfl, rfl⟩, ?_⟩
  simp only [ne_eq, cosine_similarity_eq_zero_iff]
  push_neg
  refine ⟨by simp, by simp, ?_, ?_, ?_⟩
  · norm_num [sumSq]
  · norm_num [sumSq]
  · norm_num [dotProd]

/-- Claim C4 (amended): mismatched lengths are not special-cased to zero;
`zip` silently truncates to the shorter vector.  On present vectors the
similarity is exactly 0.0 iff a vector is empty, a vector has zero norm, or
the truncated dot product is zero. -/
theorem cosine_zero_characterization (v1 v2 : List ℝ) :
    cosine_similarity (some v1) (some v2) = 0
      ↔ v1 = [] ∨ v2 = [] ∨ sumSq v1 = 0 ∨ sumSq v2 = 0 ∨ dotProd v1 v2 = 0 :=
  cosine_similarity_eq_zero_iff v1 v2

/-- A JSON-like value as returned by the embedding provider; Python dicts
are association lists with unique keys and first-match lookup. -/
inductive JsonVal where
  | null
  | bool (b : Bool)
  | num (q : ℚ)
  | str (s : String)
  | arr (elems : List JsonVal)
  | obj (fields : List (String × JsonVal))

/-- Python `data[key]` on a dict, as first-match association-list lookup. -/
def objGet : List (String × JsonVal) → String → Option JsonVal
  | [], _ => none
  | (k, v) :: rest, key => if k = key then some v else objGet rest key

/-- Python `key in data` on a dict. -/
def objContains (fields : List (String × JsonVal)) (key : String) : Bool :=
  fields.any fun p => p.1 == key

/-- The response-shape normalization of `ollama_embeddings` (`src/main.py`
lines 85-91): a dict with an `"embedding"` key yields that value; otherwise
a dict with an `"embeddings"` key yields that value; otherwise a non-empty
list yields its first element; anything else yields `None`.  (Transport
failures are caught earlier and also yield `None`.) -/
def ollama_embeddings_normalize : JsonVal → Option JsonVal
  | .obj fields =>
      if objContains fields "embedding" then objGet fields "embedding"
      else if objContains fields "embeddings" then objGet fields "embeddings"
      else none
  | .arr (e :: _) => some e
  | _ => none

/-- The amended C5 contract, written from its own words: the `"embedding"`
field if present, else the `"embeddings"` field taken whole (not its first
element), else the first element of a bare non-empty list, else null. -/
def embed_normalize_spec : JsonVal → Option JsonVal
  | .obj fields => (objGet fields "embedding").orElse fun _ => objGet fields "embeddings"
  | .arr elems => elems.head?
  | _ => none

theorem objContains_iff_isSome (fields : List (String × JsonVal)) (key : String) :
    objContains fields key = true ↔ (objGet fields key).isSome = true := by
  induction fields with
  | nil => simp [objContains, objGet]
  | cons p rest ih =>
      obtain ⟨k, v⟩ := p
      by_cases hk : k = key
      · simp [objContains, objGet, hk]
      · have h1 : objContains ((k, v) :: rest) key = objContains rest key := by
          simp [objContains, hk]
        have h2 : objGet ((k, v) :: rest) key = objGet rest key := by
          simp [objGet, hk]
        rw [h1, h2]
        exact ih

/-- Counterexample for C5 as stated: for a dict holding a list of vectors
under `"embeddings"`, the code returns the whole list of vectors, not the
first vector of that list. -/
theorem embeddings_list_counterexample :
    ollama_embeddings_normalize
        (JsonVal.obj [("embeddings", JsonVal.arr [JsonVal.arr [JsonVal.num 1],
          JsonVal.arr [JsonVal.num 2]])])
      = some (JsonVal.arr [JsonVal.arr [JsonVal.num 1], JsonVal.arr [JsonVal.num 2]])
    ∧ some (JsonVal.arr [JsonVal.arr [JsonVal.num 1], JsonVal.arr [JsonVal.num 2]])
        ≠ some (JsonVal.arr [JsonVal.num 1]) := by
  constructor
  · rfl
  · intro h
    simp only [Option.some.injEq, JsonVal.arr.injEq, List.cons.injEq] at h
    exact List.cons_ne_nil _ _ h.2

/-- Claim C5 (amended): the normalization accepts exactly three shapes —
a dict with an `"embedding"` field yields the value of that field, a dict with an
`"embeddings"` field yields that value whole (the list of vectors, not its
first element), and a bare non-empty list yields its first element — and any
other response shape yields null. -/
theorem embed_normalize_shapes (data : JsonVal) :
    ollama_embeddings_normalize data = embed_normalize_spec data := by
  cases data with
  | obj fields =>
      simp only [ollama_embeddings_normalize, embed_normalize_spec]
      by_cases h1 : objContains fields "embedding" = true
      · rw [if_pos h1]
        obtain ⟨v, hv⟩ := Option.isSome_iff_exists.mp ((objContains_iff_isSome _ _).mp h1)
        rw [hv]
        rfl
      · rw [if_neg h1]
        have hg1 : objGet fields "embedding" = none := by
          rcases h : objGet fields "embedding" with _ | v
          · rfl
          · exact absurd ((objContains_iff_isSome _ _).mpr (by rw [h]; rfl)) h1
        rw [hg1]
        by_cases h2 : objContains fields "embeddings" = true
        · rw [if_pos h2]
          rfl
        · rw [if_neg h2]
          have hg2 : objGet fields "embeddings" = none := by
            rcases h : objGet fields "embeddings" with _ | v
            · rfl
            · exact absurd ((objContains_iff_isSome _ _).mpr (by rw [h]; rfl)) h2
          rw [hg2]
          rfl
  | arr elems => cases elems <;> rfl
  | null => rfl
  | bool b => rfl
  | num q => rfl
  | str s => rfl

/-- Python `line.split(":", 1)`: the text before the first colon and
everything after it. -/
def splitFirstColon (line : String) : String × String :=
  match line.splitOn ":" with
  | [] => ("", "")
  | k :: rest => (k, String.intercalate ":" rest)

/-- Python dict assignment `entry[k] = v`: update the value in place when
the key exists (keeping first-insertion order), else append. -/
def dictInsert : List (String × String) → String → String → List (String × String)
  | [], k, v => [(k, v)]
  | (k₀, v₀) :: rest, k, v =>
      if k₀ = k then (k, v) :: rest else (k₀, v₀) :: dictInsert rest k v

/-- Python `key in entry` on a dict. -/
def dictContains (entry : List (String × String)) (key : String) : Bool :=
  entry.any fun p => p.1 == key

/-- One block of `read_otc_file` (`src/main.py` lines 69-74): keep the lines
containing a colon, strip each, split at the first colon, and build the
entry dict from the stripped key and value. -/
def parse_block (block : String) : List (String × String) :=
  ((block.splitOn "\n").filter fun l => l.contains ':').foldl
    (fun entry l =>
      dictInsert entry (splitFirstColon l.trim).1.trim (splitFirstColon l.trim).2.trim)
    []

/-- `read_otc_file` (`src/main.py` lines 62-78).  A missing source (`None`,
modelling a non-existent path) yields the empty list; otherwise the trimmed
content is split into blank-line-separated blocks, each block is parsed, and
entries lacking a `"Condition"` key are dropped. -/
def read_otc_file : Option String → List (List (String × String))
  | none => []
  | some content =>
      (content.trim.splitOn "\n\n").foldl
        (fun entries block =>
          if dictContains (parse_block block) "Condition" then entries ++ [parse_block block]
          else entries)
        []

theorem foldl_append_filter {α β : Type} (f : β → α) (p : α → Bool) (l : List β) :
    ∀ acc : List α,
      l.foldl (fun es b => if p (f b) then es ++ [f b] else es) acc
        = acc ++ (l.map f).filter p := by
  induction l with
  | nil => intro acc; simp
  | cons b l ih =>
      intro acc
      simp only [List.foldl_cons, List.map_cons, List.filter_cons]
      by_cases hb : p (f b) = true
      · rw [if_pos hb, if_pos hb, ih, List.append_assoc]
        rfl
      · rw [if_neg hb, if_neg hb, ih]

/-- Claim C9: the loader returns the empty sequence for a missing source,
and for a present source it is exactly the blank-line-split blocks, parsed
`Key: Value`-wise, filtered to those containing a `"Condition"` field — a
filter, so the source order of the surviving records is preserved. -/
theorem read_otc_file_spec :
    read_otc_file none = []
    ∧ ∀ content : String,
        read_otc_file (some content)
          = ((content.trim.splitOn "\n\n").map parse_block).filter
              fun e => dictContains e "Condition" := by
  refine ⟨rfl, ?_⟩
  intro content
  simpa using foldl_append_filter parse_block (fun e => dictContains e "Condition")
    (content.trim.splitOn "\n\n") []

/-- First-match lookup in the in-memory OTP store
(`self.otp_storage.get(email)` in `src/email_service.py`). -/
def otp_lookup : List (String × String) → String → Option String
  | [], _ => none
  | (k, v) :: rest, email => if k = email then some v else otp_lookup rest email

/-- Python `del self.otp_storage[email]`: remove the binding for `email`. -/
def otp_erase (st : List (String × String)) (email : String) : List (String × String) :=
  st.filter fun p => p.1 != email

/-- `verify_otp` from `src/email_service.py` (lines 30-35): if a truthy
(non-empty) OTP is stored for the email and equals the supplied one, delete
it and return `True`; otherwise return `False` leaving the store unchanged.
The result pairs the returned boolean with the post-call store. -/
def verify_otp (st : List (String × String)) (email otp : String) :
    Bool × List (String × String) :=
  match otp_lookup st email with
  | some stored =>
      if stored ≠ "" ∧ stored = otp then (true, otp_erase st email) else (false, st)
  | none => (false, st)

theorem otp_lookup_erase (st : List (String × String)) (email : String) :
    otp_lookup (otp_erase st email) email = none := by
  induction st with
  | nil => rfl
  | cons p rest ih =>
      obtain ⟨k, v⟩ := p
      by_cases hk : k = email
      · simpa [otp_erase, List.filter_cons, hk] using ih
      · simpa [otp_erase, List.filter_cons, hk, otp_lookup] using ih

/-- Claim C10: `verify_otp` returns `True` exactly when a non-empty OTP is
stored for the email and equals the supplied one; on success the stored OTP
is deleted, so an immediate second call with the same pair returns `False`;
on failure the store is unchanged. -/
theorem verify_otp_spec (st : List (String × String)) (email otp : String) :
    ((verify_otp st email otp).1 = true ↔ otp_lookup st email = some otp ∧ otp ≠ "")
    ∧ ((verify_otp st email otp).1 = true →
        otp_lookup (verify_otp st email otp).2 email = none
        ∧ (verify_otp (verify_otp st email otp).2 email otp).1 = false)
    ∧ ((verify_otp st email otp).1 = false → (verify_otp st email otp).2 = st) := by
  rcases h : otp_lookup st email with _ | stored
  · refine ⟨?_, ?_, ?_⟩
    · simp [verify_otp, h]
    · simp [verify_otp, h]
    · simp [verify_otp, h]
  · by_cases hc : stored ≠ "" ∧ stored = otp
    · obtain ⟨hne, rfl⟩ := hc
      have hv : verify_otp st email stored = (true, otp_erase st email) := by
        simp [verify_otp, h, hne]
      refine ⟨?_, ?_, ?_⟩
      · simp [hv, h, hne]
      · intro _
        rw [hv]
        refine ⟨otp_lookup_erase st email, ?_⟩
        simp [verify_otp, otp_lookup_erase st email]
      · intro hfalse
        rw [hv] at hfalse
        exact absurd hfalse (by simp)
    · have hv : verify_otp st email otp = (false, st) := by
        simp only [verify_otp, h]
        rw [if_neg hc]
      refine ⟨?_, ?_, ?_⟩
      · rw [hv]
        simp only [h, Option.some.injEq]
        constructor
        · intro hfalse; exact absurd hfalse (by simp)
        · rintro ⟨rfl, hne⟩
          exact absurd ⟨hne, rfl⟩ hc
      · intro htrue
        rw [hv] at htrue
        exact absurd htrue (by simp)
      · intro _
        rw [hv]
